import Mathlib

/-!
Verification development for the YuCart content script
(`src/content/content.js`): a shallow embedding of the price extractor,
title cleaner, redirect-link decoder, scan scheduler, page-shape
detectors, lightbox synchronizer, teardown and the injected-control
activation handler, together with theorems settling the specified
properties.

Strings are embedded as `List Char`; JavaScript numbers produced by
`parseFloat` on the digit/dot strings that occur here are embedded as
exact rationals (`ℚ`); DOM state is embedded as explicit records, and
fallible operations (`decodeURIComponent`) return `Option`.
-/

namespace YuCart

/-! ## Character classes used by the price regular expressions

JavaScript classes: `\d` is `[0-9]`, `\w` is `[A-Za-z0-9_]`, `\s` is the
ECMAScript WhiteSpace/LineTerminator set. -/

def isJsDigit (c : Char) : Bool := c.isDigit

def isDigitCommaDot (c : Char) : Bool := c.isDigit || c = ',' || c = '.'

def isJsSpace (c : Char) : Bool :=
  c = ' ' || c = '\t' || c = '\n' || c = '\x0b' || c = '\x0c' || c = '\r' ||
  c = '\u00A0' || c = '\u1680' ||
  ('\u2000' ≤ c && c ≤ '\u200A') ||
  c = '\u2028' || c = '\u2029' || c = '\u202F' || c = '\u205F' ||
  c = '\u3000' || c = '\uFEFF'

def isJsWord (c : Char) : Bool := c.isAlpha || c.isDigit || c = '_'

/-! ## A small backtracking regular-expression engine

Enough to embed the fixed patterns of the source. Stars occur in the
source only over single character classes (`[\d,.]*`, `\s*`), so the
star constructor is specialized to a class. `grp` marks the single
capturing group each pattern has. The result list of `runRE` enumerates
the engine's alternatives in JavaScript's backtracking priority order
(greedy stars longest-first, left alternative first, optional body
first), so the head of the list at the leftmost matching position is
exactly the match JavaScript's `String.prototype.match` returns. -/

inductive RE where
  | eps : RE
  | cls : (Char → Bool) → RE
  | starCls : (Char → Bool) → RE
  | seq : RE → RE → RE
  | alt : RE → RE → RE
  | opt : RE → RE
  | eos : RE
  | grp : RE → RE

/-- Suffixes reachable by consuming a prefix of `p`-characters,
longest consumed first (greedy star over a class). -/
def starSplits (p : Char → Bool) (s : List Char) : List (List Char) :=
  let k := (s.takeWhile p).length
  (List.range (k + 1)).map (fun i => s.drop (k - i))

/-- All ways to match `r` against a prefix of `s`, in backtracking
priority order; each result is the remaining suffix together with the
text of the capturing group, if the group participated. -/
def runRE : RE → List Char → List (List Char × Option (List Char))
  | .eps, s => [(s, none)]
  | .cls p, s =>
    match s with
    | [] => []
    | c :: r => if p c then [(r, none)] else []
  | .starCls p, s => (starSplits p s).map (fun r => (r, none))
  | .seq a b, s =>
    (runRE a s).flatMap (fun x =>
      (runRE b x.1).map (fun y => (y.1, x.2 <|> y.2)))
  | .alt a b, s => runRE a s ++ runRE b s
  | .opt a, s => runRE a s ++ [(s, none)]
  | .eos, s => if s.isEmpty then [(s, none)] else []
  | .grp a, s =>
    (runRE a s).map (fun x => (x.1, some (s.take (s.length - x.1.length))))

/-- The capture of the highest-priority match of `r` at the start of
`s`, if any. -/
def reMatchAt (r : RE) (s : List Char) : Option (Option (List Char)) :=
  (runRE r s).head?.map (fun x => x.2)

/-- JavaScript `text.match(re)` (non-global): scan start positions left
to right, return the first position's highest-priority match's capture
group. -/
def reFindFirst (r : RE) : List Char → Option (List Char)
  | [] =>
    match reMatchAt r [] with
    | some c => some (c.getD [])
    | none => none
  | s@(_ :: rest) =>
    match reMatchAt r s with
    | some cap => some (cap.getD [])
    | none => reFindFirst r rest

/-! ## The four price patterns (`PRICE_REGEX`, content.js:15-20)

```
/(\d[\d,.]*)\s*[Yy](?:uan)?(?:\s|$|[【\[\(]|[^\w])/
/[¥￥]\s*(\d[\d,.]*)/
/(\d[\d,.]*)\s*[¥￥元]/
/[Pp](\d[\d,.]*)(?:\s|$|[【\[\(]|[^\w])/
``` -/

/-- The capture group `(\d[\d,.]*)` shared by the patterns. -/
def numGroup : RE := .grp (.seq (.cls isJsDigit) (.starCls isDigitCommaDot))

/-- The boundary tail `(?:\s|$|[【\[\(]|[^\w])`. -/
def boundaryTail : RE :=
  .alt (.cls isJsSpace)
    (.alt .eos
      (.alt (.cls (fun c => c = '【' || c = '[' || c = '('))
        (.cls (fun c => !isJsWord c))))

/-- `(?:uan)?` -/
def optUan : RE :=
  .opt (.seq (.cls (fun c => c = 'u')) (.seq (.cls (fun c => c = 'a')) (.cls (fun c => c = 'n'))))

def patYuan : RE :=
  .seq numGroup
    (.seq (.starCls isJsSpace)
      (.seq (.cls (fun c => c = 'Y' || c = 'y')) (.seq optUan boundaryTail)))

def patSymFirst : RE :=
  .seq (.cls (fun c => c = '¥' || c = '￥')) (.seq (.starCls isJsSpace) numGroup)

def patSymAfter : RE :=
  .seq numGroup
    (.seq (.starCls isJsSpace) (.cls (fun c => c = '¥' || c = '￥' || c = '元')))

def patPnum : RE :=
  .seq (.cls (fun c => c = 'P' || c = 'p')) (.seq numGroup boundaryTail)

def PRICE_REGEX : List RE := [patYuan, patSymFirst, patSymAfter, patPnum]

/-- The legacy revision's pattern list (content.js:725-729): the same
first three patterns, without the P-prefixed one. -/
def PRICE_REGEX_legacy : List RE := [patYuan, patSymFirst, patSymAfter]

/-! ## `parseFloat` on the captured token -/

def digitsVal (ds : List Char) : ℕ :=
  ds.foldl (fun a c => a * 10 + (c.toNat - 48)) 0

/-- JavaScript `parseFloat` restricted to the strings that reach it
here: a leading digit run, optionally followed by `.` and more digits;
parsing stops at the first character that cannot extend the literal
(for the captured tokens, a second dot or the end). -/
def jsParseFloat (s : List Char) : ℚ :=
  let ip := s.takeWhile isJsDigit
  let rest := s.dropWhile isJsDigit
  match rest with
  | '.' :: r =>
    let fsp := r.takeWhile isJsDigit
    mkRat (digitsVal ip * 10 ^ fsp.length + digitsVal fsp) (10 ^ fsp.length)
  | _ => (digitsVal ip : ℚ)

/-- `m[1].replace(/,/g, '')` then `parseFloat` — the candidate price a
pattern match yields. -/
def matchCandidate (r : RE) (t : List Char) : Option ℚ :=
  (reFindFirst r t).map (fun cap => jsParseFloat (cap.filter (fun c => c ≠ ',')))

/-- The extractor loop (content.js:67-76): try each pattern in order;
on a match, parse the captured token; return it if `0 < p < 999999`,
otherwise fall through to the next pattern; `none` if all fail. -/
def extractPriceFrom : List RE → List Char → Option ℚ
  | [], _ => none
  | r :: rs, t =>
    match matchCandidate r t with
    | some p => if 0 < p ∧ p < 999999 then some p else extractPriceFrom rs t
    | none => extractPriceFrom rs t

def extractPrice (t : List Char) : Option ℚ := extractPriceFrom PRICE_REGEX t

/-- `extractPrice` of the legacy revision (content.js:745-754). -/
def extractPriceLegacy (t : List Char) : Option ℚ :=
  extractPriceFrom PRICE_REGEX_legacy t

/-! ## Title cleaning (content.js:359, 416, 473)

`titleText.replace(/^\d[\d,.]*\s*[Yy](?:uan)?\s*/, '').trim() || titleText`
-/

/-- The anchored strip pattern. -/
def stripPat : RE :=
  .seq (.cls isJsDigit) (.seq (.starCls isDigitCommaDot)
    (.seq (.starCls isJsSpace) (.seq (.cls (fun c => c = 'Y' || c = 'y'))
      (.seq optUan (.starCls isJsSpace)))))

/-- Non-global anchored `replace(re, '')`: the suffix after the prefix
match, or the text unchanged when the pattern does not match at the
start. -/
def replaceStripLead (t : List Char) : List Char :=
  match (runRE stripPat t).head? with
  | some x => x.1
  | none => t

/-- JavaScript `String.prototype.trim`. -/
def jsTrim (t : List Char) : List Char :=
  ((t.dropWhile isJsSpace).reverse.dropWhile isJsSpace).reverse

/-- The cleaned display title: strip a leading number-plus-`Y`/`Yuan`
token, trim, and fall back to the original text when the result is
empty (`|| titleText`). -/
def cleanTitle (t : List Char) : List Char :=
  let s := jsTrim (replaceStripLead t)
  if s = [] then t else s

/-! ## Redirect-link decoding (`getGallerySubtitle`, content.js:79-99)

`decodeURIComponent` is embedded as the ECMAScript Decode operation:
percent-escapes are turned into bytes, the byte groups must form valid
(shortest-form, non-surrogate) UTF-8, and any violation — a malformed
escape or an invalid byte sequence — is a thrown `URIError`, embedded
as `none`. -/

def hexVal (c : Char) : Option ℕ :=
  if '0' ≤ c ∧ c ≤ '9' then some (c.toNat - 48)
  else if 'A' ≤ c ∧ c ≤ 'F' then some (c.toNat - 55)
  else if 'a' ≤ c ∧ c ≤ 'f' then some (c.toNat - 87)
  else none

inductive UriTok where
  | ch (c : Char) : UriTok
  | byte (b : ℕ) : UriTok

/-- Tokenize: a `%` must be followed by two hex digits and yields a
byte; every other character stands for itself. -/
def uriTokens : List Char → Option (List UriTok)
  | [] => some []
  | '%' :: h1 :: h2 :: r =>
    match hexVal h1, hexVal h2 with
    | some a, some b => (uriTokens r).map (UriTok.byte (16 * a + b) :: ·)
    | _, _ => none
  | '%' :: _ => none
  | c :: r => (uriTokens r).map (UriTok.ch c :: ·)

/-- Decode the token stream: bytes must assemble into valid UTF-8
sequences (each continuation byte itself written as an escape). -/
def decodeToks : List UriTok → Option (List Char)
  | [] => some []
  | .ch c :: r => (decodeToks r).map (c :: ·)
  | .byte b :: r =>
    if b < 0x80 then (decodeToks r).map (Char.ofNat b :: ·)
    else if 0xC2 ≤ b ∧ b ≤ 0xDF then
      match r with
      | .byte b2 :: r2 =>
        if 0x80 ≤ b2 ∧ b2 ≤ 0xBF then
          (decodeToks r2).map (Char.ofNat ((b - 0xC0) * 64 + (b2 - 0x80)) :: ·)
        else none
      | _ => none
    else if 0xE0 ≤ b ∧ b ≤ 0xEF then
      match r with
      | .byte b2 :: .byte b3 :: r3 =>
        if (if b = 0xE0 then 0xA0 else 0x80) ≤ b2 ∧
            b2 ≤ (if b = 0xED then 0x9F else 0xBF) ∧
            0x80 ≤ b3 ∧ b3 ≤ 0xBF then
          (decodeToks r3).map
            (Char.ofNat ((b - 0xE0) * 4096 + (b2 - 0x80) * 64 + (b3 - 0x80)) :: ·)
        else none
      | _ => none
    else if 0xF0 ≤ b ∧ b ≤ 0xF4 then
      match r with
      | .byte b2 :: .byte b3 :: .byte b4 :: r4 =>
        if (if b = 0xF0 then 0x90 else 0x80) ≤ b2 ∧
            b2 ≤ (if b = 0xF4 then 0x8F else 0xBF) ∧
            0x80 ≤ b3 ∧ b3 ≤ 0xBF ∧ 0x80 ≤ b4 ∧ b4 ≤ 0xBF then
          (decodeToks r4).map
            (Char.ofNat
              ((b - 0xF0) * 262144 + (b2 - 0x80) * 4096 + (b3 - 0x80) * 64 + (b4 - 0x80)) :: ·)
        else none
      | _ => none
    else none

/-- `decodeURIComponent`, with a thrown `URIError` embedded as `none`. -/
def decodeURIComponentM (s : List Char) : Option (List Char) :=
  (uriTokens s).bind decodeToks

/-- The wrapper pattern `[?&]url=([^&]+)`. -/
def urlParamRE : RE :=
  .seq (.cls (fun c => c = '?' || c = '&'))
    (.seq (.cls (fun c => c = 'u')) (.seq (.cls (fun c => c = 'r'))
      (.seq (.cls (fun c => c = 'l')) (.seq (.cls (fun c => c = '='))
        (.grp (.seq (.cls (fun c => c ≠ '&')) (.starCls (fun c => c ≠ '&'))))))))

/-- The redirect-unwrapping step of `getGallerySubtitle`
(content.js:85-95) applied to an anchor href: if the href carries a
`url=` query parameter, `try { return decode(decode(v)) } catch
{ return decode(v) }` — note the catch branch re-runs the single decode,
which itself throws (`none`) whenever the first decode of the try
branch had already failed; a href without the wrapper pattern is
returned verbatim. -/
def unwrapHref (href : List Char) : Option (List Char) :=
  match reFindFirst urlParamRE href with
  | some v =>
    match (decodeURIComponentM v).bind decodeURIComponentM with
    | some d => some d
    | none => decodeURIComponentM v
  | none => some href

/-! ## Scan scheduler (content.js:563-618) -/

/-- Elements of the document tree: the root `<html>` element, the
`<body>`, and all others, identified by a number. -/
inductive Elem where
  | htmlRoot : Elem
  | body : Elem
  | other (n : ℕ) : Elem
deriving DecidableEq, Repr

/-- A mutated node as seen by `queueRootForScan`: the document itself,
an element, or a non-element node together with its `parentElement`
(when it has one). -/
inductive DNode where
  | document : DNode
  | element (e : Elem) : DNode
  | nonElement (parent : Option Elem) : DNode
deriving DecidableEq, Repr

/-- The scheduler accumulation state: the dirty-root set
(`pendingScanRoots`, a JavaScript `Set`, embedded as its
insertion-ordered duplicate-free list) and the full-rescan flag. -/
structure SchedulerState where
  pendingScanRoots : List Elem
  pendingFullRescan : Bool
deriving DecidableEq, Repr

/-- `Set.prototype.add`. -/
def setAdd (xs : List Elem) (e : Elem) : List Elem :=
  if e ∈ xs then xs else xs ++ [e]

/-- The tail of `queueRootForScan`: add the root, then collapse to the
full-rescan flag when the set's size exceeds 80. -/
def addRoot (s : SchedulerState) (e : Elem) : SchedulerState :=
  if (setAdd s.pendingScanRoots e).length > 80 then ⟨[], true⟩
  else ⟨setAdd s.pendingScanRoots e, s.pendingFullRescan⟩

/-- `queueRootForScan` (content.js:563-580). -/
def queueRootForScan (s : SchedulerState) (node : DNode) : SchedulerState :=
  if s.pendingFullRescan then s
  else
    match node with
    | .document => ⟨[], true⟩
    | .element .htmlRoot => ⟨[], true⟩
    | .element .body => ⟨[], true⟩
    | .element e => addRoot s e
    | .nonElement none => s
    | .nonElement (some p) => addRoot s p

/-! ## Page state and the page-shape detectors

The document is embedded by the data the detectors read and write: the
grid-listing cards and index anchors (with their resolved title text,
the count of attached controls — the injection marker is an attached
control's presence — and the elements containing them, for root-scoped
queries), the detail header, the page-level detail-bar and viewer-bar
markers, the lightbox style signals, and the cached detail context.
Thumbnail, vendor and URL resolution do not influence any claimed
property and are abstracted away from the injected control's payload. -/

structure Album where
  title : List Char
  btnCount : ℕ
  ancestors : List Elem
deriving DecidableEq, Repr

structure IndexItem where
  title : List Char
  btnCount : ℕ
  ancestors : List Elem
deriving DecidableEq, Repr

/-- The single-item detail shape's page-level state: the detail header
text (when the header element exists), the number of injected detail
bars (the page-level injection marker is a bar's presence), the
forced-hide override on the bar, and the cached detail context
(`detailPageItemData`). -/
structure DetailState where
  title : Option (List Char)
  barCount : ℕ
  barForcedHidden : Bool
  ctx : Option (List Char × ℚ)
deriving DecidableEq, Repr

/-- The transient-overlay panel: whether `.viewer__main` exists, whether
its computed style is `display:none`, and the number of injected viewer
bars. -/
structure ViewerState where
  present : Bool
  displayNone : Bool
  barCount : ℕ
deriving DecidableEq, Repr

structure PageState where
  albums : List Album
  indexItems : List IndexItem
  detail : DetailState
  viewer : ViewerState
  htmlOverflowHidden : Bool
  htmlPositionFixed : Bool
  connected : List Elem
deriving DecidableEq, Repr

/-- Whether a candidate, given the elements containing it, is returned
by `queryIncludingRoot(root, …)` — for a scoped scan, the root must be
the candidate itself or one of its ancestors; an unscoped scan
(`root = document`) sees everything. -/
def inScope (scope : Option Elem) (anc : List Elem) : Bool :=
  match scope with
  | none => true
  | some e => e ∈ anc

/-- The per-card body of `processAlbumListings` (content.js:346-389):
skip when a control is already attached, skip when no price extracts,
otherwise attach one control. -/
def albumStep (a : Album) : Album :=
  if a.btnCount > 0 then a
  else
    match extractPrice a.title with
    | none => a
    | some _ => { a with btnCount := a.btnCount + 1 }

/-- `processAlbumListings(root)` (content.js:342-390). -/
def processAlbumListings (scope : Option Elem) (p : PageState) : PageState :=
  { p with albums := p.albums.map (fun a => if inScope scope a.ancestors then albumStep a else a) }

/-- The per-anchor body of `processIndexPage` (content.js:463-499). -/
def indexStep (it : IndexItem) : IndexItem :=
  if it.btnCount > 0 then it
  else
    match extractPrice it.title with
    | none => it
    | some _ => { it with btnCount := it.btnCount + 1 }

/-- `processIndexPage(root)` (content.js:459-500). -/
def processIndexPage (scope : Option Elem) (p : PageState) : PageState :=
  { p with indexItems := p.indexItems.map (fun it => if inScope scope it.ancestors then indexStep it else it) }

/-- The state change of `processDetailPage` (content.js:398-454):
abort when no detail header exists, when a detail bar is already
present anywhere on the page, or when no price extracts from the
trimmed header text; otherwise cache the detail context (the cleaned
title and the price) and inject the bar. -/
def detailStep (d : DetailState) : DetailState :=
  match d.title with
  | none => d
  | some t =>
    if d.barCount > 0 then d
    else
      match extractPrice (jsTrim t) with
      | none => d
      | some pr =>
        { d with ctx := some (cleanTitle (jsTrim t), pr), barCount := d.barCount + 1 }

/-- `processDetailPage` is page-level only: it never takes a root. -/
def processDetailPage (p : PageState) : PageState :=
  { p with detail := detailStep p.detail }

/-- The state change of `processImageViewer` (content.js:505-548):
abort when no viewer panel exists, when its bar is already injected, or
when no detail context is cached; otherwise inject the viewer bar from
the cloned cached context. -/
def viewerStep (ctx : Option (List Char × ℚ)) (v : ViewerState) : ViewerState :=
  if !v.present then v
  else if v.barCount > 0 then v
  else
    match ctx with
    | none => v
    | some _ => { v with barCount := v.barCount + 1 }

/-- `processImageViewer` is page-level only. -/
def processImageViewer (p : PageState) : PageState :=
  { p with viewer := viewerStep p.detail.ctx p.viewer }

/-- `scanPage` (content.js:551-556): all four detectors, page level. -/
def scanPage (p : PageState) : PageState :=
  processImageViewer (processIndexPage none (processDetailPage (processAlbumListings none p)))

/-- `scanRoot` (content.js:558-561): the two root-scoped detectors. -/
def scanRoot (e : Elem) (p : PageState) : PageState :=
  processIndexPage (some e) (processAlbumListings (some e) p)

/-- `flushQueuedScans` (content.js:591-613). -/
def flushQueuedScans (s : SchedulerState) (p : PageState) : SchedulerState × PageState :=
  if s.pendingFullRescan then
    (⟨[], false⟩, scanPage p)
  else
    let p1 := s.pendingScanRoots.foldl
      (fun acc r => if r ∈ acc.connected then scanRoot r acc else acc) p
    (⟨[], false⟩, processImageViewer (processDetailPage p1))

/-! ## Lightbox synchronizer (`handleLightboxChange`, content.js:634-656) -/

/-- Overlay visibility as the specification defines it: the scroll-lock
container (`<html>` inline style) indicates a locked state, or the
viewer panel's computed style is not `display:none`. -/
def overlayVisible (p : PageState) : Bool :=
  (p.htmlOverflowHidden && p.htmlPositionFixed) || (p.viewer.present && !p.viewer.displayNone)

/-- The debounced body of `handleLightboxChange`: a no-op without a
detail bar; otherwise set or remove the forced-hide override from the
two visibility signals, and invoke `processImageViewer` only when the
viewer panel itself is visible. The boolean records whether
`processImageViewer` was invoked. -/
def handleLightboxRecompute (p : PageState) : PageState × Bool :=
  if p.detail.barCount = 0 then (p, false)
  else
    let isHtmlLocked := p.htmlOverflowHidden && p.htmlPositionFixed
    let isViewerVisible := p.viewer.present && !p.viewer.displayNone
    let p1 :=
      if isHtmlLocked || isViewerVisible then
        { p with detail := { p.detail with barForcedHidden := true } }
      else
        { p with detail := { p.detail with barForcedHidden := false } }
    if isViewerVisible then (processImageViewer p1, true) else (p1, false)

/-! ## Engine lifecycle state and teardown (`cleanup`, content.js:175-192) -/

structure Engine where
  observerConn : Bool
  htmlObserverConn : Bool
  viewerObserverConn : Bool
  viewerCheckIntervalLive : Bool
  scanDebounceTimerLive : Bool
  lightboxDebounceTimerLive : Bool
  settingsListenerAttached : Bool
  sched : SchedulerState
  detailPageItemData : Option (List Char × ℚ)
  darkModeClassOn : Bool
deriving DecidableEq, Repr

/-- `cleanup` (content.js:175-192): disconnect the three observers,
clear the interval and both debounce timers, detach the settings
listener, clear the dirty-root set and the full-rescan flag, and remove
the dark-mode class. `detailPageItemData` is not touched by the
source's `cleanup`. -/
def cleanup (e : Engine) : Engine :=
  { e with
    observerConn := false
    htmlObserverConn := false
    viewerObserverConn := false
    viewerCheckIntervalLive := false
    scanDebounceTimerLive := false
    lightboxDebounceTimerLive := false
    settingsListenerAttached := false
    sched := ⟨[], false⟩
    darkModeClassOn := false }

/-! ## The injected control's activation handler
(`createCartButton`, content.js:292-323) -/

inductive BtnPhase where
  | idle : BtnPhase
  | adding : BtnPhase
  | added : BtnPhase
deriving DecidableEq, Repr

/-- The control: the busy-marker class `yucart-add-btn--added` (added on
activation, removed by the revert timer), the label phase, and a count
of `addToCart` invocations started. -/
structure CartButton where
  busyMarker : Bool
  phase : BtnPhase
  addInvocations : ℕ
deriving DecidableEq, Repr

/-- Modelled from the spec: the extension's stylesheet, which renders
the busy-marker class, is not under `src/`; per the specification's
Injector contract the activation handler first disables/marks the
control as busy and a control in that state cannot be re-activated, so
an activation attempt on a control carrying the busy marker does not
run the click handler. -/
def activationBlocked (b : CartButton) : Bool := b.busyMarker

inductive BtnEvent where
  | activate : BtnEvent
  | addComplete : BtnEvent
  | revertTimer : BtnEvent
deriving DecidableEq, Repr

/-- One event of the activation handler's lifecycle
(content.js:309-320): activation marks the control busy and starts the
awaited `addToCart` call; completion shows the transient success label;
the 1500 ms timer then removes the busy marker and restores the label. -/
def cartButtonStep (b : CartButton) (ev : BtnEvent) : CartButton :=
  match ev with
  | .activate =>
    if activationBlocked b then b
    else { busyMarker := true, phase := .adding, addInvocations := b.addInvocations + 1 }
  | .addComplete =>
    if b.phase = .adding then { b with phase := .added } else b
  | .revertTimer =>
    if b.phase = .added then { b with busyMarker := false, phase := .idle } else b

/-! ## Concrete states used to instantiate the theorems -/

/-- A minimal page state. -/
def emptyPage : PageState :=
  { albums := [], indexItems := [],
    detail := { title := none, barCount := 0, barForcedHidden := false, ctx := none },
    viewer := { present := false, displayNone := false, barCount := 0 },
    htmlOverflowHidden := false, htmlPositionFixed := false, connected := [] }

/-- The detail state of a page whose header reads `¥99.50 headphones`,
before any scan. -/
def headphonesDetail : DetailState :=
  { title := some ("¥99.50 headphones").toList, barCount := 0,
    barForcedHidden := false, ctx := none }

/-- A page with an injected detail bar and a cached context, whose
scroll lock is engaged while the viewer panel's computed style is
`display:none` and no viewer bar is injected. -/
def lockedHiddenViewerPage : PageState :=
  { albums := [], indexItems := [],
    detail := { title := none, barCount := 1, barForcedHidden := false,
                ctx := some (("sneakers").toList, 250) },
    viewer := { present := true, displayNone := true, barCount := 0 },
    htmlOverflowHidden := true, htmlPositionFixed := true, connected := [] }

/-- The same page with the scroll lock released. -/
def unlockedHiddenViewerPage : PageState :=
  { lockedHiddenViewerPage with htmlOverflowHidden := false, htmlPositionFixed := false }

/-- An engine state with every observer, timer and listener live and a
cached detail context. -/
def liveEngine : Engine :=
  { observerConn := true, htmlObserverConn := true, viewerObserverConn := true,
    viewerCheckIntervalLive := true, scanDebounceTimerLive := true,
    lightboxDebounceTimerLive := true, settingsListenerAttached := true,
    sched := ⟨[Elem.other 3], false⟩,
    detailPageItemData := some (("sneakers").toList, 250),
    darkModeClassOn := true }

/-! ## Shared lemmas -/

theorem mkRat_as_div (n : ℤ) (d : ℕ) : mkRat n d = (n : ℚ) / d := by
  rw [Rat.mkRat_eq_divInt, Rat.divInt_eq_div]; norm_num

theorem extractPriceFrom_range (rs : List RE) (t : List Char) (p : ℚ)
    (h : extractPriceFrom rs t = some p) : 0 < p ∧ p < 999999 := by
  induction rs with
  | nil => simp [extractPriceFrom] at h
  | cons r rest ih =>
    cases hm : matchCandidate r t with
    | none =>
      simp only [extractPriceFrom, hm] at h
      exact ih h
    | some q =>
      simp only [extractPriceFrom, hm] at h
      by_cases hq : 0 < q ∧ q < 999999
      · rw [if_pos hq] at h; cases h; exact hq
      · rw [if_neg hq] at h; exact ih h

theorem extractPriceFrom_append (rs rsp : List RE) (t : List Char) :
    extractPriceFrom (rs ++ rsp) t =
      match extractPriceFrom rs t with
      | some p => some p
      | none => extractPriceFrom rsp t := by
  induction rs with
  | nil => simp [extractPriceFrom]
  | cons r rest ih =>
    simp only [List.cons_append, extractPriceFrom]
    cases hm : matchCandidate r t with
    | none => exact ih
    | some q =>
      by_cases hq : 0 < q ∧ q < 999999
      · simp [hq]
      · simp only [if_neg hq]; exact ih

theorem setAdd_length_le (xs : List Elem) (e : Elem) :
    (setAdd xs e).length ≤ xs.length + 1 := by
  unfold setAdd
  split
  · omega
  · simp

theorem addRoot_inv (s : SchedulerState) (e : Elem)
    (hf : s.pendingFullRescan = false) :
    ((addRoot s e).pendingFullRescan = true → (addRoot s e).pendingScanRoots = []) ∧
    (addRoot s e).pendingScanRoots.length ≤ 80 := by
  unfold addRoot
  split
  · exact ⟨fun _ => rfl, by simp⟩
  · next h =>
    refine ⟨fun htr => ?_, by simpa using Nat.le_of_not_lt h⟩
    simp [hf] at htr

theorem albumStep_idem (a : Album) : albumStep (albumStep a) = albumStep a := by
  by_cases h : a.btnCount > 0
  · simp [albumStep, h]
  · cases hx : extractPrice a.title with
    | none => simp [albumStep, h, hx]
    | some q => simp [albumStep, h, hx]

theorem indexStep_idem (it : IndexItem) : indexStep (indexStep it) = indexStep it := by
  by_cases h : it.btnCount > 0
  · simp [indexStep, h]
  · cases hx : extractPrice it.title with
    | none => simp [indexStep, h, hx]
    | some q => simp [indexStep, h, hx]

theorem detailStep_idem (d : DetailState) : detailStep (detailStep d) = detailStep d := by
  cases ht : d.title with
  | none => simp [detailStep, ht]
  | some t =>
    by_cases hb : d.barCount > 0
    · simp [detailStep, ht, hb]
    · cases hx : extractPrice (jsTrim t) with
      | none => simp [detailStep, ht, hb, hx]
      | some pr => simp [detailStep, ht, hb, hx]

theorem viewerStep_idem (c : Option (List Char × ℚ)) (v : ViewerState) :
    viewerStep c (viewerStep c v) = viewerStep c v := by
  cases hp : v.present with
  | false => simp [viewerStep, hp]
  | true =>
    by_cases hb : v.barCount > 0
    · simp [viewerStep, hp, hb]
    · cases hc : c with
      | none => simp [viewerStep, hp, hb, hc]
      | some x => simp [viewerStep, hp, hb, hc]

theorem scanPage_eq (p : PageState) :
    scanPage p =
      { p with
        albums := p.albums.map albumStep
        indexItems := p.indexItems.map indexStep
        detail := detailStep p.detail
        viewer := viewerStep (detailStep p.detail).ctx p.viewer } := rfl

theorem scanPage_idem (p : PageState) : scanPage (scanPage p) = scanPage p := by
  simp only [scanPage_eq]
  simp [detailStep_idem, viewerStep_idem]
  exact ⟨fun a _ => albumStep_idem a, fun it _ => indexStep_idem it⟩

theorem scanRoot_connected (e : Elem) (p : PageState) :
    (scanRoot e p).connected = p.connected := rfl

theorem foldl_scanRoot_filter (l : List Elem) (p : PageState) :
    ∀ q : PageState, q.connected = p.connected →
      l.foldl (fun acc r => if r ∈ acc.connected then scanRoot r acc else acc) q =
      (l.filter (fun r => r ∈ p.connected)).foldl (fun acc r => scanRoot r acc) q := by
  induction l with
  | nil => intro q _; rfl
  | cons r rest ih =>
    intro q hq
    by_cases hr : r ∈ p.connected
    · have hq' : r ∈ q.connected := by rw [hq]; exact hr
      rw [List.foldl_cons, if_pos hq', List.filter_cons,
        if_pos (show decide (r ∈ p.connected) = true by simp [hr]), List.foldl_cons]
      exact ih (scanRoot r q) (by rw [scanRoot_connected, hq])
    · have hq' : r ∉ q.connected := by rw [hq]; exact hr
      rw [List.foldl_cons, if_neg hq', List.filter_cons,
        if_neg (show ¬decide (r ∈ p.connected) = true by simp [hr])]
      exact ih q hq

/-! ## The claims -/

/-- Claim C1: `extractPrice` tries the four price patterns in their
fixed priority order and returns the numeric value of the first
pattern whose match, after comma removal and `parseFloat`, is a price
`p` with `0 < p < 999999`; an out-of-range candidate falls through to
the next pattern, `none` when no pattern yields an in-range value; and
the four end-to-end examples hold. -/
theorem extractPrice_priority_range_examples :
    (∀ r rs t, extractPriceFrom (r :: rs) t =
      match matchCandidate r t with
      | some p => if 0 < p ∧ p < 999999 then some p else extractPriceFrom rs t
      | none => extractPriceFrom rs t) ∧
    (∀ t, (∀ r ∈ PRICE_REGEX, ∀ p, matchCandidate r t = some p → ¬(0 < p ∧ p < 999999)) →
      extractPrice t = none) ∧
    (∀ t p, extractPrice t = some p → 0 < p ∧ p < 999999) ∧
    extractPrice ("160Y iPhone case").toList = some 160 ∧
    extractPrice ("¥99.50 headphones").toList = some (199 / 2) ∧
    extractPrice ("P250 sneakers").toList = some 250 ∧
    extractPrice ("1999999Y hat").toList = none := by
  have hnone : ∀ rs : List RE, ∀ t : List Char,
      (∀ r ∈ rs, ∀ p, matchCandidate r t = some p → ¬(0 < p ∧ p < 999999)) →
      extractPriceFrom rs t = none := by
    intro rs t
    induction rs with
    | nil => intro _; rfl
    | cons r rest ih =>
      intro h
      cases hm : matchCandidate r t with
      | none =>
        simp only [extractPriceFrom, hm]
        exact ih (fun rr hrr => h rr (List.mem_cons_of_mem r hrr))
      | some q =>
        simp only [extractPriceFrom, hm]
        rw [if_neg (h r (List.mem_cons_self r rest) q hm)]
        exact ih (fun rr hrr => h rr (List.mem_cons_of_mem r hrr))
  refine ⟨fun r rs t => rfl, fun t h => hnone PRICE_REGEX t h,
    fun t p h => extractPriceFrom_range _ _ _ h, by decide, ?_, by decide, by decide⟩
  rw [show extractPrice ("¥99.50 headphones").toList = some (mkRat 199 2) from by decide,
    mkRat_as_div]
  norm_num

/-- Claim C1 witness: the range conjunct applied at `"160Y iPhone case"`. -/
theorem extractPrice_priority_range_examples_witness :
    0 < (160 : ℚ) ∧ (160 : ℚ) < 999999 :=
  extractPrice_priority_range_examples.2.2.1 ("160Y iPhone case").toList 160 (by decide)

/-- Claim C10: the current `extractPrice` is a conservative extension of
the legacy revision's: whenever the legacy three-pattern extractor
returns a price, the current one returns the same price, and the two
can differ only where the legacy list yields nothing and the new
P-prefixed pattern decides the result. -/
theorem extractPrice_conservative_over_legacy :
    (∀ t p, extractPriceLegacy t = some p → extractPrice t = some p) ∧
    (∀ t, extractPrice t ≠ extractPriceLegacy t →
      extractPriceLegacy t = none ∧
      extractPrice t = extractPriceFrom [patPnum] t) := by
  have key : ∀ t, extractPrice t =
      match extractPriceLegacy t with
      | some p => some p
      | none => extractPriceFrom [patPnum] t := by
    intro t
    have hsplit : PRICE_REGEX = PRICE_REGEX_legacy ++ [patPnum] := rfl
    rw [extractPrice, hsplit, extractPriceFrom_append]
    rfl
  constructor
  · intro t p h
    rw [key t, h]
  · intro t hne
    cases hl : extractPriceLegacy t with
    | some p => exact absurd (by rw [key t, hl]) hne
    | none => exact ⟨rfl, by rw [key t, hl]⟩

/-- Claim C10 witness: both conjuncts at concrete inputs — a shared
pattern (`160Y`), and the P-prefixed input where the two extractors
differ. -/
theorem extractPrice_conservative_over_legacy_witness :
    extractPrice ("160Y iPhone case").toList = some 160 ∧
    (extractPriceLegacy ("P250 sneakers").toList = none ∧
      extractPrice ("P250 sneakers").toList =
        extractPriceFrom [patPnum] ("P250 sneakers").toList) :=
  ⟨extractPrice_conservative_over_legacy.1 ("160Y iPhone case").toList 160 (by decide),
    extractPrice_conservative_over_legacy.2 ("P250 sneakers").toList (by decide)⟩

/-- Claim C2 (counterexample): for the detail header
`"¥99.50 headphones"` the title stored in the Item Descriptor is NOT
the text with the price token stripped — the strip pattern
`^\d[\d,.]*\s*[Yy](?:uan)?\s*` only removes a leading
number-plus-`Y`/`Yuan` token, so the stored title keeps the full text
instead of becoming `"headphones"`. -/
theorem detailTitle_not_stripped_counterexample :
    (detailStep headphonesDetail).ctx.map Prod.fst =
      some (("¥99.50 headphones").toList) ∧
    (detailStep headphonesDetail).ctx.map Prod.fst ≠
      some (("headphones").toList) := by
  decide

/-- Claim C2 (amended): the stored and displayed title is the original
text with a leading number-plus-`Y`/`Yuan` token (only that shape)
stripped and trimmed; if the stripped-and-trimmed result is empty the
original text is kept; a price matched by any other pattern (currency
symbol, ideograph, P-prefix) is not stripped — in particular
`"160Y iPhone case"` gives `"iPhone case"` while
`"¥99.50 headphones"` keeps its full text. -/
theorem cleanTitle_strip_behavior :
    cleanTitle ("160Y iPhone case").toList = ("iPhone case").toList ∧
    cleanTitle ("¥99.50 headphones").toList = ("¥99.50 headphones").toList ∧
    (∀ t, jsTrim (replaceStripLead t) = [] → cleanTitle t = t) ∧
    (∀ t, jsTrim (replaceStripLead t) ≠ [] →
      cleanTitle t = jsTrim (replaceStripLead t)) ∧
    (∀ d : DetailState, ∀ t pr, d.title = some t → d.barCount = 0 →
      extractPrice (jsTrim t) = some pr →
      (detailStep d).ctx = some (cleanTitle (jsTrim t), pr)) := by
  refine ⟨by decide, by decide, ?_, ?_, ?_⟩
  · intro t h; simp [cleanTitle, h]
  · intro t h; simp [cleanTitle, h]
  · intro d t pr ht hbar hpr
    simp [detailStep, ht, hbar, hpr]

/-- Claim C2 witness: the descriptor-title conjunct applied at the
`"¥99.50 headphones"` detail page. -/
theorem cleanTitle_strip_behavior_witness :
    (detailStep headphonesDetail).ctx =
      some (cleanTitle (jsTrim ("¥99.50 headphones").toList), mkRat 199 2) :=
  cleanTitle_strip_behavior.2.2.2.2 headphonesDetail
    ("¥99.50 headphones").toList (mkRat 199 2) rfl rfl (by decide)

/-- Claim C3: queueing the document, the root element or the body
collapses the scheduler to the full-rescan flag with an empty
dirty-root set regardless of previously queued roots; an insertion
pushing the set's size above 80 does the same; and every queue
operation preserves the invariant that a set flag implies an empty set
and the set holds at most 80 entries. -/
theorem queueRootForScan_accumulation_invariant :
    (∀ s n, (s.pendingFullRescan = true → s.pendingScanRoots = []) →
      s.pendingScanRoots.length ≤ 80 →
      ((queueRootForScan s n).pendingFullRescan = true →
        (queueRootForScan s n).pendingScanRoots = []) ∧
      (queueRootForScan s n).pendingScanRoots.length ≤ 80) ∧
    (∀ s n, (s.pendingFullRescan = true → s.pendingScanRoots = []) →
      (n = DNode.document ∨ n = DNode.element Elem.htmlRoot ∨ n = DNode.element Elem.body) →
      (queueRootForScan s n).pendingFullRescan = true ∧
      (queueRootForScan s n).pendingScanRoots = []) ∧
    (∀ s m, s.pendingFullRescan = false →
      (setAdd s.pendingScanRoots (Elem.other m)).length > 80 →
      queueRootForScan s (DNode.element (Elem.other m)) = ⟨[], true⟩) := by
  refine ⟨?_, ?_, ?_⟩
  · intro s n h1 h2
    by_cases hf : s.pendingFullRescan = true
    · have hq : queueRootForScan s n = s := by simp [queueRootForScan, hf]
      rw [hq]
      exact ⟨h1, h2⟩
    · have hf' : s.pendingFullRescan = false := by
        cases hfv : s.pendingFullRescan
        · rfl
        · exact absurd hfv hf
      simp only [queueRootForScan, hf', Bool.false_eq_true, if_false]
      cases n with
      | document => exact ⟨fun _ => rfl, by simp⟩
      | element e =>
        cases e with
        | htmlRoot => exact ⟨fun _ => rfl, by simp⟩
        | body => exact ⟨fun _ => rfl, by simp⟩
        | other m => exact addRoot_inv s (Elem.other m) hf'
      | nonElement pe =>
        cases pe with
        | none => exact ⟨h1, h2⟩
        | some q => exact addRoot_inv s q hf'
  · intro s n h1 hn
    by_cases hf : s.pendingFullRescan = true
    · have hq : queueRootForScan s n = s := by simp [queueRootForScan, hf]
      rw [hq]
      exact ⟨hf, h1 hf⟩
    · have hf' : s.pendingFullRescan = false := by
        cases hfv : s.pendingFullRescan
        · rfl
        · exact absurd hfv hf
      rcases hn with h | h | h <;> subst h <;>
        simp [queueRootForScan, hf']
  · intro s m hf hlen
    simp [queueRootForScan, hf, addRoot, hlen]

/-- Claim C3 witness: queueing the document on an empty idle scheduler. -/
theorem queueRootForScan_accumulation_invariant_witness :
    (queueRootForScan ⟨[], false⟩ DNode.document).pendingFullRescan = true ∧
    (queueRootForScan ⟨[], false⟩ DNode.document).pendingScanRoots = [] :=
  queueRootForScan_accumulation_invariant.2.1 ⟨[], false⟩ DNode.document
    (fun _ => rfl) (Or.inl rfl)

/-- Claim C4: scanning is idempotent — a second full page scan over an
unchanged tree is the identity on the scanned result, so each eligible
element carries exactly one control; every detector checks its
injection marker before any side effect (an element with an attached
control, or a page with a detail bar, is skipped), and a detail-page
scan is a no-op whenever a detail bar is present anywhere on the
page. -/
theorem scan_idempotent_injection :
    (∀ p, scanPage (scanPage p) = scanPage p) ∧
    (∀ p, p.detail.barCount > 0 → processDetailPage p = p) ∧
    (∀ p, (scanPage p).albums = p.albums.map albumStep ∧
      (scanPage p).indexItems = p.indexItems.map indexStep) ∧
    (∀ a : Album, a.btnCount = 0 →
      (albumStep a).btnCount = if (extractPrice a.title).isSome then 1 else 0) ∧
    (∀ it : IndexItem, it.btnCount = 0 →
      (indexStep it).btnCount = if (extractPrice it.title).isSome then 1 else 0) ∧
    (∀ d : DetailState, ∀ t, d.title = some t → d.barCount = 0 →
      (detailStep d).barCount = if (extractPrice (jsTrim t)).isSome then 1 else 0) := by
  refine ⟨scanPage_idem, ?_, ?_, ?_, ?_, ?_⟩
  · intro p h
    have hd : detailStep p.detail = p.detail := by
      cases ht : p.detail.title with
      | none => simp [detailStep, ht]
      | some t => simp [detailStep, ht, h]
    simp [processDetailPage, hd]
  · intro p
    rw [scanPage_eq]
    exact ⟨rfl, rfl⟩
  · intro a h
    cases hx : extractPrice a.title with
    | none => simp [albumStep, h, hx]
    | some q => simp [albumStep, h, hx]
  · intro it h
    cases hx : extractPrice it.title with
    | none => simp [indexStep, h, hx]
    | some q => simp [indexStep, h, hx]
  · intro d t ht h
    cases hx : extractPrice (jsTrim t) with
    | none => simp [detailStep, ht, h, hx]
    | some q => simp [detailStep, ht, h, hx]

/-- Claim C4 witness: the detail no-op conjunct at a page whose detail
bar is already injected. -/
theorem scan_idempotent_injection_witness :
    processDetailPage lockedHiddenViewerPage = lockedHiddenViewerPage :=
  scan_idempotent_injection.2.1 lockedHiddenViewerPage (by decide)

/-- Claim C5: a flush with the full-rescan flag set clears the flag and
the set and scans the whole page with all detectors; otherwise it runs
the grid and index detectors scoped to each queued root still connected
(disconnected roots are skipped), then runs the detail-page and
image-viewer detectors once at page level. -/
theorem flushQueuedScans_dispatch :
    (∀ s p, s.pendingFullRescan = true →
      flushQueuedScans s p = (⟨[], false⟩, scanPage p)) ∧
    (∀ s p, s.pendingFullRescan = false →
      flushQueuedScans s p =
        (⟨[], false⟩,
          processImageViewer (processDetailPage
            ((s.pendingScanRoots.filter (fun r => r ∈ p.connected)).foldl
              (fun acc r => scanRoot r acc) p)))) := by
  constructor
  · intro s p h
    simp [flushQueuedScans, h]
  · intro s p h
    simp only [flushQueuedScans, h, Bool.false_eq_true, if_false]
    rw [foldl_scanRoot_filter s.pendingScanRoots p p rfl]

/-- Claim C5 witness: the full-rescan conjunct at a flagged scheduler. -/
theorem flushQueuedScans_dispatch_witness :
    flushQueuedScans ⟨[], true⟩ emptyPage = (⟨[], false⟩, scanPage emptyPage) :=
  flushQueuedScans_dispatch.1 ⟨[], true⟩ emptyPage rfl

/-- Claim C6 (counterexample): for a href whose `url=` parameter fails
even a single URL-decode (`%E2` is an incomplete escape sequence), the
catch branch's own `decodeURIComponent` call throws again, so the
operation raises a `URIError` (`none`) instead of falling back to the
raw href verbatim. -/
theorem unwrapHref_raises_counterexample :
    unwrapHref ("https://x.yupoo.com/external?url=%E2").toList = none ∧
    unwrapHref ("https://x.yupoo.com/external?url=%E2").toList ≠
      some (("https://x.yupoo.com/external?url=%E2").toList) := by
  decide

/-- Claim C6 (amended): a href with a `url=` parameter is double-URL-
decoded; if the double decode fails, the result is the single decode of
the parameter — which itself raises when that decode also fails (there
is no raw-href fallback on decoding failure); the raw href is returned
verbatim exactly when no `url=` wrapper pattern matches; and the
double-encoded example decodes to `https://weidian.com/item`. -/
theorem unwrapHref_decoding_behavior :
    (∀ href, reFindFirst urlParamRE href = none → unwrapHref href = some href) ∧
    (∀ href v d, reFindFirst urlParamRE href = some v →
      (decodeURIComponentM v).bind decodeURIComponentM = some d →
      unwrapHref href = some d) ∧
    (∀ href v, reFindFirst urlParamRE href = some v →
      (decodeURIComponentM v).bind decodeURIComponentM = none →
      unwrapHref href = decodeURIComponentM v) ∧
    unwrapHref ("https://x.yupoo.com/external?url=https%253A%252F%252Fweidian.com%252Fitem").toList
      = some (("https://weidian.com/item").toList) := by
  refine ⟨?_, ?_, ?_, by decide⟩
  · intro href h; simp [unwrapHref, h]
  · intro href v d h1 h2; simp [unwrapHref, h1, h2]
  · intro href v h1 h2; simp [unwrapHref, h1, h2]

/-- Claim C6 witness: the no-wrapper conjunct at a plain href. -/
theorem unwrapHref_decoding_behavior_witness :
    unwrapHref ("https://weidian.com/item").toList =
      some (("https://weidian.com/item").toList) :=
  unwrapHref_decoding_behavior.1 ("https://weidian.com/item").toList (by decide)

/-- Claim C7 (counterexample): with the scroll lock engaged but the
viewer panel `display:none`, the overlay counts as visible (per the
claim's definition), yet the transient-overlay detector is NOT invoked
— the code gates `processImageViewer` on the panel's own visibility
only, so no viewer bar is injected even though an invocation would have
injected one. -/
theorem handleLightbox_detector_not_invoked_counterexample :
    overlayVisible lockedHiddenViewerPage = true ∧
    (handleLightboxRecompute lockedHiddenViewerPage).2 = false ∧
    ((handleLightboxRecompute lockedHiddenViewerPage).1).viewer.barCount = 0 ∧
    (processImageViewer (handleLightboxRecompute lockedHiddenViewerPage).1).viewer.barCount = 1 := by
  decide

/-- Claim C7 (amended): after the debounce, with a detail bar present,
the bar's forced-hide override is set exactly when the scroll lock is
engaged or the panel is visible and removed otherwise; the transient-
overlay detector is invoked exactly when the panel itself is visible
(not when visibility comes solely from the scroll lock); without a
detail bar the recompute is a no-op. In particular, a hidden panel with
an unlocked container leaves the override removed. -/
theorem handleLightbox_recompute_behavior :
    (∀ p, p.detail.barCount = 0 → handleLightboxRecompute p = (p, false)) ∧
    (∀ p, p.detail.barCount ≠ 0 → overlayVisible p = true →
      ((handleLightboxRecompute p).1).detail.barForcedHidden = true) ∧
    (∀ p, p.detail.barCount ≠ 0 → overlayVisible p = false →
      ((handleLightboxRecompute p).1).detail.barForcedHidden = false) ∧
    (∀ p, (handleLightboxRecompute p).2 = true ↔
      (p.detail.barCount ≠ 0 ∧ p.viewer.present = true ∧ p.viewer.displayNone = false)) ∧
    (∀ p, p.detail.barCount ≠ 0 → p.viewer.present = true → p.viewer.displayNone = false →
      (handleLightboxRecompute p).1 =
        processImageViewer { p with detail := { p.detail with barForcedHidden := true } }) := by
  refine ⟨?_, ?_, ?_, ?_, ?_⟩
  · intro p h
    simp [handleLightboxRecompute, h]
  · intro p h hv
    cases hp : p.viewer.present <;> cases hd : p.viewer.displayNone <;>
      cases ho : p.htmlOverflowHidden <;> cases hpf : p.htmlPositionFixed <;>
      simp_all [handleLightboxRecompute, overlayVisible, processImageViewer]
  · intro p h hv
    cases hp : p.viewer.present <;> cases hd : p.viewer.displayNone <;>
      cases ho : p.htmlOverflowHidden <;> cases hpf : p.htmlPositionFixed <;>
      simp_all [handleLightboxRecompute, overlayVisible, processImageViewer]
  · intro p
    by_cases h : p.detail.barCount = 0
    · simp [handleLightboxRecompute, h]
    · cases hp : p.viewer.present <;> cases hd : p.viewer.displayNone <;>
        simp_all [handleLightboxRecompute]
  · intro p h hp hd
    simp [handleLightboxRecompute, h, hp, hd]

/-- Claim C7 witness: the override-removal conjunct at the unlocked
hidden-panel page. -/
theorem handleLightbox_recompute_behavior_witness :
    ((handleLightboxRecompute unlockedHiddenViewerPage).1).detail.barForcedHidden = false :=
  handleLightbox_recompute_behavior.2.2.1 unlockedHiddenViewerPage (by decide) (by decide)

/-- Claim C8 (counterexample): teardown does NOT clear the cached
detail context — `cleanup` leaves `detailPageItemData` exactly as it
was. -/
theorem cleanup_retains_detail_context_counterexample :
    (cleanup liveEngine).detailPageItemData = some (("sneakers").toList, 250) ∧
    (cleanup liveEngine).detailPageItemData ≠ none := by
  decide

/-- Claim C8 (amended): `cleanup` disconnects every observer, clears
every pending timer and the viewer poll interval (leaving zero live
timers), detaches the settings listener, and clears the dirty-root set
and the full-rescan flag — but it retains the cached detail context
unchanged. -/
theorem cleanup_teardown_behavior (e : Engine) :
    (cleanup e).observerConn = false ∧
    (cleanup e).htmlObserverConn = false ∧
    (cleanup e).viewerObserverConn = false ∧
    (cleanup e).viewerCheckIntervalLive = false ∧
    (cleanup e).scanDebounceTimerLive = false ∧
    (cleanup e).lightboxDebounceTimerLive = false ∧
    (cleanup e).settingsListenerAttached = false ∧
    (cleanup e).sched.pendingScanRoots = [] ∧
    (cleanup e).sched.pendingFullRescan = false ∧
    (cleanup e).detailPageItemData = e.detailPageItemData :=
  ⟨rfl, rfl, rfl, rfl, rfl, rfl, rfl, rfl, rfl, rfl⟩

/-- Claim C9: activating an idle control marks it busy before the
awaited add-item call and increments the invocation count exactly once;
activating a control already carrying the busy marker is a no-op (the
disabled state, not the scheduler, provides the exclusion), so a second
activation during the busy window can never start a concurrent add;
completion shows the transient success state with the marker still on,
and only the revert timer releases the marker. -/
theorem cartButton_busy_window_exclusion :
    (∀ b : CartButton, b.busyMarker = false →
      cartButtonStep b .activate = ⟨true, .adding, b.addInvocations + 1⟩) ∧
    (∀ b : CartButton, b.busyMarker = true →
      cartButtonStep b .activate = b) ∧
    (∀ b : CartButton, ∀ ev,
      (cartButtonStep b ev).addInvocations ≠ b.addInvocations →
      ev = .activate ∧ b.busyMarker = false) ∧
    (∀ b : CartButton, b.phase = .adding →
      cartButtonStep b .addComplete = { b with phase := .added }) ∧
    (∀ b : CartButton, b.phase = .added →
      cartButtonStep b .revertTimer = { b with busyMarker := false, phase := .idle }) := by
  refine ⟨?_, ?_, ?_, ?_, ?_⟩
  · intro b h
    simp [cartButtonStep, activationBlocked, h]
  · intro b h
    simp [cartButtonStep, activationBlocked, h]
  · intro b ev h
    cases ev with
    | activate =>
      cases hm : b.busyMarker
      · exact ⟨rfl, rfl⟩
      · simp [cartButtonStep, activationBlocked, hm] at h
    | addComplete =>
      by_cases hp : b.phase = BtnPhase.adding <;> simp [cartButtonStep, hp] at h
    | revertTimer =>
      by_cases hp : b.phase = BtnPhase.added <;> simp [cartButtonStep, hp] at h
  · intro b h
    simp [cartButtonStep, h]
  · intro b h
    simp [cartButtonStep, h]

/-- Claim C9 witness: a re-activation during the busy window is a
no-op. -/
theorem cartButton_busy_window_exclusion_witness :
    cartButtonStep ⟨true, BtnPhase.adding, 1⟩ BtnEvent.activate =
      ⟨true, BtnPhase.adding, 1⟩ :=
  cartButton_busy_window_exclusion.2.1 ⟨true, BtnPhase.adding, 1⟩ rfl

end YuCart
